import Mathlib

/-!
Shallow embedding of the pagination / cross-reference / report pipeline of the
`veracode-threat-feed` action (`src/types.ts`, class `ThreatFeedChecker`).

HTTP transport is abstracted into page-source functions: a source maps a
cursor (threat feed) or a zero-based page index (Veracode endpoints) to either
an error (`Except.error ()`, modelling a thrown request failure) or the decoded
response body.  Loops of the source are modelled as fuel-indexed recursion:
`none` marks fuel exhaustion (the TypeScript `while` loop not having
terminated within the given number of iterations) and is never produced under
the page-count hypotheses of the theorems below.
-/

namespace ThreatFeed

/-- One `{archive, hash, type}` entry of `PhylumThreatPackage.hashes`
(`type` is renamed `hashType`: `type` is a Lean keyword). -/
structure HashEntry where
  archive : String
  hash : String
  hashType : String
deriving DecidableEq

/-- `PhylumThreatPackage` of `types.ts`.  `indicators` is an open key-value
bag of which the program only ever reads `Object.keys`, in iteration order;
it is therefore modelled as that key list.  `vulnerabilities`-style opaque
payloads are dropped the same way throughout. -/
structure PhylumThreatPackage where
  created : String
  ecosystem : String
  hashes : Option (List HashEntry)
  indicators : List String
  name : String
  version : String
deriving DecidableEq

/-- A JavaScript value usable as the threat feed continuation cursor.  The
TypeScript interface types `cursor` as `number | undefined`, but the code
tests it only for truthiness (`if (response.data.cursor)`), and the spec also
discusses string cursors; the runtime value is therefore modelled as a
number, a string, or `undefined` (also covering an absent field). -/
inductive JsCursor where
  | num (n : Int)
  | str (s : String)
  | undef
deriving DecidableEq

/-- JavaScript truthiness of a cursor value (`0`, `""` and `undefined` are
falsy; fractional and NaN numbers are outside the model). -/
def JsCursor.truthy : JsCursor → Bool
  | .num n => n != 0
  | .str s => s != ""
  | .undef => false

/-- `PhylumThreatFeedResponse` of `types.ts`; an absent `cursor` field is
`JsCursor.undef`. -/
structure PhylumThreatFeedResponse where
  has_next : Bool
  has_previous : Bool
  packages : List PhylumThreatPackage
  cursor : JsCursor
deriving DecidableEq

/-- `VeracodeWorkspace` of `types.ts`. -/
structure VeracodeWorkspace where
  id : String
  name : String
  created : String
  lastUpdated : String
deriving DecidableEq

/-- `VeracodeProject` of `types.ts`. -/
structure VeracodeProject where
  id : String
  name : String
  workspaceId : String
  created : String
  lastUpdated : String
deriving DecidableEq

/-- `VeracodeLibrary` of `types.ts`.  `vulnerabilities : any[]` is a list of
opaque values: only its length is ever read. -/
structure VeracodeLibrary where
  id : String
  name : String
  version : String
  ecosystem : String
  license : String
  vulnerabilities : List Unit
deriving DecidableEq

/-- The `page` block of the paged Veracode responses. -/
structure PageMeta where
  size : Nat
  totalElements : Nat
  totalPages : Nat
  number : Nat
deriving DecidableEq

/-- A paged Veracode response as the fetch loops read it:
`_embedded?.<items>` (optional-chained in the code, hence `Option`) and
`page?` metadata.  Instantiated at `VeracodeProject` for
`VeracodeProjectsResponse` and at `VeracodeLibrary` for
`VeracodeLibrariesResponse`. -/
structure NumberedPage (α : Type) where
  embedded : Option (List α)
  page : Option PageMeta
deriving DecidableEq

/-- `VeracodeWorkspacesResponse` of `types.ts`: the code reads
`_embedded.workspaces` without optional chaining.  The wire format of the
endpoint carries the same `page` block as its sibling endpoints; the
TypeScript interface omits it and the code never reads it, so it is kept
here only so that a "source reporting totalPages = n" is expressible. -/
structure VeracodeWorkspacesResponse where
  workspaces : List VeracodeWorkspace
  page : Option PageMeta
deriving DecidableEq

/-- One `{ library, project, workspace }` element of the flattened inventory
built by `fetchAllLibraries`. -/
structure InventoryTriple where
  library : VeracodeLibrary
  project : VeracodeProject
  workspace : VeracodeWorkspace
deriving DecidableEq

/-- `VulnerableMatch` of `types.ts`. -/
structure VulnerableMatch where
  threatPackage : PhylumThreatPackage
  library : VeracodeLibrary
  project : VeracodeProject
  workspace : VeracodeWorkspace
deriving DecidableEq

/-! ## Cursor-paginated threat feed fetch (`fetchAllThreatPackages`) -/

/-- The `while (hasMore)` loop body of `fetchAllThreatPackages`: request the
page designated by the current cursor (`JsCursor.undef` selects the
cursor-less first URL), append `response.data.packages`, continue with the
new cursor exactly when it is truthy, and rethrow any request error
(`throw error` in the catch block). -/
def fetchThreatLoop (src : JsCursor → Except Unit PhylumThreatFeedResponse) :
    Nat → JsCursor → List PhylumThreatPackage →
    Option (Except Unit (List PhylumThreatPackage))
  | 0, _, _ => none
  | fuel + 1, cursor, acc =>
    match src cursor with
    | .error e => some (.error e)
    | .ok r =>
      let acc := acc ++ r.packages
      if r.cursor.truthy then fetchThreatLoop src fuel r.cursor acc
      else some (.ok acc)

/-- `fetchAllThreatPackages` of `types.ts`: run the loop from an undefined
cursor with an empty accumulator. -/
def fetchAllThreatPackages (src : JsCursor → Except Unit PhylumThreatFeedResponse)
    (fuel : Nat) : Option (Except Unit (List PhylumThreatPackage)) :=
  fetchThreatLoop src fuel JsCursor.undef []

/-! ## Page-number-paginated fetch loops
(`fetchProjectsForWorkspace`, `fetchLibrariesForProject`) -/

/-- The shared `while (hasMore)` loop of `fetchProjectsForWorkspace` and
`fetchLibrariesForProject`.  Alongside the accumulated items it returns the
trace of requested page indices (the loop's successive values of `page`), so
that call-count properties are expressible.  On a request error at `page = 0`
the function returns `[]`; on an error at a later page it stops with the
items accumulated so far.  Otherwise it appends `_embedded?.<items>` (if
present) and continues while `(page?.number || 0) < (page?.totalPages || 0) - 1`. -/
def fetchNumberedLoop {α : Type} (src : Nat → Except Unit (NumberedPage α)) :
    Nat → Nat → List Nat → List α → Option (List Nat × List α)
  | 0, _, _, _ => none
  | fuel + 1, page, trace, acc =>
    match src page with
    | .error _ =>
      if page = 0 then some (trace ++ [page], [])
      else some (trace ++ [page], acc)
    | .ok r =>
      let acc := acc ++ r.embedded.getD []
      let totalPages := (r.page.map PageMeta.totalPages).getD 0
      let currentPage := (r.page.map PageMeta.number).getD 0
      if currentPage < totalPages - 1 then
        fetchNumberedLoop src fuel (page + 1) (trace ++ [page]) acc
      else some (trace ++ [page], acc)

/-- `fetchProjectsForWorkspace` of `types.ts`, with the transport for the
given workspace abstracted into `src`. -/
def fetchProjectsForWorkspace (src : Nat → Except Unit (NumberedPage VeracodeProject))
    (fuel : Nat) : Option (List Nat × List VeracodeProject) :=
  fetchNumberedLoop src fuel 0 [] []

/-- `fetchLibrariesForProject` of `types.ts`, with the transport for the
given workspace/project pair abstracted into `src`. -/
def fetchLibrariesForProject (src : Nat → Except Unit (NumberedPage VeracodeLibrary))
    (fuel : Nat) : Option (List Nat × List VeracodeLibrary) :=
  fetchNumberedLoop src fuel 0 [] []

/-- `fetchAllWorkspaces` of `types.ts`: a single GET of `/srcclr/v3/workspaces`
(no page parameter, i.e. page 0), returning `_embedded.workspaces` of that one
response; a request error is rethrown.  The first component records the page
indices requested. -/
def fetchAllWorkspaces (src : Nat → Except Unit VeracodeWorkspacesResponse) :
    List Nat × Except Unit (List VeracodeWorkspace) :=
  ([0], (src 0).map (fun r => r.workspaces))

/-! ## Match engine (`findVulnerableMatches`) -/

/-- The match condition of `findVulnerableMatches`:
`threatPackage.name === library.name && threatPackage.version === library.version`. -/
def matchCond (t : PhylumThreatPackage) (e : InventoryTriple) : Bool :=
  t.name == e.library.name && t.version == e.library.version

/-- Build the `VulnerableMatch` pushed by `findVulnerableMatches`. -/
def mkMatch (t : PhylumThreatPackage) (e : InventoryTriple) : VulnerableMatch :=
  ⟨t, e.library, e.project, e.workspace⟩

/-- `findVulnerableMatches` of `types.ts`: nested `for…of` loops pushing a
match for every qualifying (threat, triple) pair, modelled as nested left
folds over an accumulator. -/
def findVulnerableMatches (threatPackages : List PhylumThreatPackage)
    (allLibraries : List InventoryTriple) : List VulnerableMatch :=
  threatPackages.foldl
    (fun acc t =>
      allLibraries.foldl
        (fun acc2 e => if matchCond t e then acc2 ++ [mkMatch t e] else acc2)
        acc)
    []

/-! ## Alert summary (`generateSummary`) -/

/-- One numbered block of the non-empty branch of `generateSummary`
(`matches.forEach((match, index) => …)` with `i = index + 1`). -/
def matchBlock (i : Nat) (m : VulnerableMatch) : String :=
  toString i ++ ". Package: " ++ m.threatPackage.name ++ "@" ++ m.threatPackage.version ++ "\n" ++
  "   Ecosystem: " ++ m.threatPackage.ecosystem ++ "\n" ++
  "   Threat Indicators: " ++ String.intercalate ", " m.threatPackage.indicators ++ "\n" ++
  "   Workspace: " ++ m.workspace.name ++ " (" ++ m.workspace.id ++ ")\n" ++
  "   Project: " ++ m.project.name ++ " (" ++ m.project.id ++ ")\n" ++
  "   Library ID: " ++ m.library.id ++ "\n" ++
  "   Library License: " ++ m.library.license ++ "\n" ++
  "   Threat Created: " ++ m.threatPackage.created ++ "\n" ++
  "   Library Vulnerabilities: " ++ toString m.library.vulnerabilities.length ++ "\n" ++
  "\n"

/-- `generateSummary` of `types.ts`.  `now` stands for the
`new Date().toISOString()` timestamp interpolated into the header. -/
def generateSummary (now : String) (matchList : List VulnerableMatch) : String :=
  let head := "THREAT FEED SECURITY ALERT SUMMARY\n" ++
    "=====================================\n\n" ++
    "Generated: " ++ now ++ "\n" ++
    "Total vulnerable packages found: " ++ toString matchList.length ++ "\n\n"
  if matchList.length = 0 then
    head ++ "✅ No vulnerable packages found in your projects.\n" ++
      "All packages in your Veracode SCA projects are clean.\n"
  else
    head ++ "🚨 IMMEDIATE ATTENTION REQUIRED!\n" ++
      "The following packages in your projects match known threats:\n\n" ++
      String.join (matchList.enum.map (fun p => matchBlock (p.1 + 1) p.2)) ++
      "\n⚠️  ACTION REQUIRED:\n" ++
      "1. Review the above packages immediately\n" ++
      "2. Update or remove vulnerable packages\n" ++
      "3. Check for alternative secure packages\n" ++
      "4. Run security scans on affected projects\n"

/-! ## Platform date model

The table renderer calls `new Date(pkg.created)` for two purposes: ordering
(`getTime()`) and rendering (`toISOString().split('T')[0]`).  The model covers
date-only ISO strings `YYYY-MM-DD`: parsing succeeds exactly on calendar-valid
strings of that shape and yields the key `y*10000 + m*100 + d`, whose `Nat`
order coincides with `getTime()` order; for such strings
`toISOString().split('T')[0]` returns the string itself.  Every other string
is modelled as an invalid date (`getTime()` is `NaN`, `toISOString()` throws). -/

/-- Decimal value of an ASCII digit, `none` otherwise. -/
def digitVal (c : Char) : Option Nat :=
  if c.isDigit then some (c.toNat - 48) else none

/-- Gregorian leap year. -/
def isLeap (y : Nat) : Bool :=
  (y % 4 = 0 && y % 100 ≠ 0) || y % 400 = 0

/-- Number of days of month `m` of year `y` (months 1-12). -/
def daysInMonth (y m : Nat) : Nat :=
  if m = 2 then (if isLeap y then 29 else 28)
  else if m = 4 || m = 6 || m = 9 || m = 11 then 30
  else 31

/-- Parse a `YYYY-MM-DD` string into its comparison key, `none` when the
string is not a calendar-valid date of that shape (an invalid JS date). -/
def parseDateKey (s : String) : Option Nat :=
  match s.toList with
  | [y1, y2, y3, y4, h1, m1, m2, h2, d1, d2] =>
    if h1 = '-' && h2 = '-' then do
      let a ← digitVal y1
      let b ← digitVal y2
      let c ← digitVal y3
      let d ← digitVal y4
      let e ← digitVal m1
      let f ← digitVal m2
      let g ← digitVal d1
      let h ← digitVal d2
      let y := a * 1000 + b * 100 + c * 10 + d
      let m := e * 10 + f
      let dd := g * 10 + h
      if 1 ≤ m && m ≤ 12 && 1 ≤ dd && dd ≤ daysInMonth y m then
        some (y * 10000 + m * 100 + dd)
      else none
    else none
  | _ => none

/-! ## Malicious-packages table (`generateMaliciousPackagesTable`) -/

/-- The sort comparator of `generateMaliciousPackagesTable` as a "may come
first" test: the JS comparator is `timeB - timeA`, so `a` may precede `b`
exactly when `timeB ≤ timeA`.  When either time is `NaN` the comparator
returns `NaN`, which the engine treats as 0 (no reordering): both directions
hold. -/
def threatLe (a b : PhylumThreatPackage) : Bool :=
  match parseDateKey a.created, parseDateKey b.created with
  | some ka, some kb => decide (kb ≤ ka)
  | _, _ => true

/-- Stable insertion of `a` into `l`: `a` is placed before the first element
it may precede. -/
def jsInsert {α : Type} (le : α → α → Bool) (a : α) : List α → List α
  | [] => [a]
  | b :: bs => if le a b then a :: b :: bs else b :: jsInsert le a bs

/-- `Array.prototype.sort` with a consistent comparator (ES2019: stable and
sorted), modelled as stable insertion sort — for a total transitive `le` this
is the unique stable `le`-sorted permutation, which is what the engine must
produce. -/
def jsSort {α : Type} (le : α → α → Bool) : List α → List α
  | [] => []
  | a :: as => jsInsert le a (jsSort le as)

/-- `[...threatPackages].sort((a, b) => new Date(b.created).getTime() - new
Date(a.created).getTime())` — the sorted copy of the threat list. -/
def sortedPackages (threatPackages : List PhylumThreatPackage) :
    List PhylumThreatPackage :=
  jsSort threatLe threatPackages

/-- `new Date(pkg.created).toISOString().split('T')[0]`: the `YYYY-MM-DD`
part for a valid date, a thrown `RangeError` (modelled as `Except.error ()`)
for an invalid one. -/
def dateAdded (p : PhylumThreatPackage) : Except Unit String :=
  match parseDateKey p.created with
  | some _ => .ok p.created
  | none => .error ()

/-- `pkg.ecosystem || 'Unknown'`. -/
def ecosystemOrUnknown (p : PhylumThreatPackage) : String :=
  if p.ecosystem = "" then "Unknown" else p.ecosystem

/-- `pkg.name || 'Unknown'`. -/
def nameOrUnknown (p : PhylumThreatPackage) : String :=
  if p.name = "" then "Unknown" else p.name

/-- `pkg.version || 'Unknown'`. -/
def versionOrUnknown (p : PhylumThreatPackage) : String :=
  if p.version = "" then "Unknown" else p.version

/-- `String.prototype.padEnd(w)`: right-pad with spaces up to width `w`
(unchanged when already at least `w` long). -/
def padEnd (s : String) (w : Nat) : String :=
  s ++ String.mk (List.replicate (w - s.length) ' ')

/-- `'-'.repeat(n)`. -/
def dashes (n : Nat) : String :=
  String.mk (List.replicate n '-')

/-- One pipe-delimited table line (used for the header row and the data
rows, which share their template shape). -/
def tableRow (w1 w2 w3 w4 : Nat) (d e n v : String) : String :=
  "| " ++ padEnd d w1 ++ " | " ++ padEnd e w2 ++ " | " ++ padEnd n w3 ++
  " | " ++ padEnd v w4 ++ " |\n"

/-- The fixed header block of the table (`now` is the generation
timestamp, `total` the raw threat-entry count). -/
def tableHead (now : String) (total : Nat) : String :=
  "MALICIOUS PACKAGES FROM THREAT FEED\n" ++
  "=====================================\n\n" ++
  "Generated: " ++ now ++ "\n" ++
  "Total packages in threat feed: " ++ toString total ++ "\n\n"

/-- The body of `generateMaliciousPackagesTable` applied to the already
sorted copy (`total` is the original list's length, used for the header and
the emptiness test).  The widths fold the row-value lengths over the header
lengths 10 ("Date Added"), 9 ("Ecosystem"), 12 ("Package Name") and
15 ("Package Version"); a date-rendering throw aborts the whole function. -/
def tableFromSorted (now : String) (total : Nat)
    (sorted : List PhylumThreatPackage) : Except Unit String :=
  if total = 0 then
    .ok (tableHead now total ++ "No packages found in threat feed.\n")
  else
    match sorted.mapM dateAdded with
    | .error e => .error e
    | .ok dates =>
      let w1 := (dates.map String.length).foldl max 10
      let w2 := (sorted.map (fun p => (ecosystemOrUnknown p).length)).foldl max 9
      let w3 := (sorted.map (fun p => (nameOrUnknown p).length)).foldl max 12
      let w4 := (sorted.map (fun p => (versionOrUnknown p).length)).foldl max 15
      let header := tableRow w1 w2 w3 w4 "Date Added" "Ecosystem" "Package Name" "Package Version"
      let sep := "|" ++ dashes (w1 + 2) ++ "|" ++ dashes (w2 + 2) ++ "|" ++
        dashes (w3 + 2) ++ "|" ++ dashes (w4 + 2) ++ "|\n"
      let rows := String.join ((dates.zip sorted).map (fun pr =>
        tableRow w1 w2 w3 w4 pr.1 (ecosystemOrUnknown pr.2)
          (nameOrUnknown pr.2) (versionOrUnknown pr.2)))
      .ok (tableHead now total ++ header ++ sep ++ rows ++ "\n" ++
        "Note: This table contains all packages from the Phylum threat feed.\n" ++
        "Packages that match your project libraries are highlighted in the summary.txt file.\n")

/-- `generateMaliciousPackagesTable` of `types.ts`. -/
def generateMaliciousPackagesTable (now : String)
    (threatPackages : List PhylumThreatPackage) : Except Unit String :=
  tableFromSorted now threatPackages.length (sortedPackages threatPackages)

/-- `generateMaliciousPackagesTable` over an explicit array store (arrays are
store indices), exposing the aliasing behaviour of
`[...threatPackages].sort(…)`: the spread allocates a fresh array at the end
of the store, the sort mutates only that fresh array, and the table is
rendered from it.  Returns the final store and the function's result. -/
def generateMaliciousPackagesTableST (now : String)
    (st : List (List PhylumThreatPackage)) (r : Nat) :
    List (List PhylumThreatPackage) × Except Unit String :=
  let arr := st.getD r []
  let sortedCopy := jsSort threatLe arr
  (st ++ [sortedCopy], tableFromSorted now arr.length sortedCopy)

/-! ## Theorems -/

instance {ε α : Type} [DecidableEq ε] [DecidableEq α] : DecidableEq (Except ε α) :=
  fun x y =>
    match x, y with
    | .ok a, .ok b =>
      if h : a = b then isTrue (by rw [h]) else isFalse (fun hh => h (Except.ok.inj hh))
    | .ok _, .error _ => isFalse (fun hh => nomatch hh)
    | .error _, .ok _ => isFalse (fun hh => nomatch hh)
    | .error a, .error b =>
      if h : a = b then isTrue (by rw [h]) else isFalse (fun hh => h (Except.error.inj hh))

lemma foldl_matchRow (t : PhylumThreatPackage) :
    ∀ (inv : List InventoryTriple) (acc : List VulnerableMatch),
      inv.foldl (fun acc2 e => if matchCond t e then acc2 ++ [mkMatch t e] else acc2) acc =
        acc ++ (inv.filter (matchCond t)).map (mkMatch t)
  | [], acc => by simp
  | e :: es, acc => by
    rw [List.foldl_cons, foldl_matchRow t es]
    by_cases h : matchCond t e
    · simp [List.filter_cons, h]
    · simp [List.filter_cons, h]

lemma foldl_findVulnerableMatches (inv : List InventoryTriple) :
    ∀ (ts : List PhylumThreatPackage) (acc : List VulnerableMatch),
      ts.foldl (fun acc t =>
          inv.foldl (fun acc2 e => if matchCond t e then acc2 ++ [mkMatch t e] else acc2) acc)
        acc =
        acc ++ ((ts.product inv).filter (fun p => matchCond p.1 p.2)).map
          (fun p => mkMatch p.1 p.2)
  | [], acc => by simp [List.product]
  | t :: ts, acc => by
    rw [List.foldl_cons, foldl_findVulnerableMatches inv ts, foldl_matchRow t inv]
    have hprod : (t :: ts).product inv = inv.map (Prod.mk t) ++ ts.product inv := by
      simp [List.product]
    rw [hprod, List.filter_append, List.map_append, List.append_assoc]
    congr 1
    rw [List.filter_map]
    simp [Function.comp_def]

/-- C2: `findVulnerableMatches` returns exactly one match per (threat, triple)
pair with byte-equal names and versions — each qualifying pair once,
duplicates included — in the order of outer iteration over threats and inner
iteration over inventory (the order of the pair list `ts.product inv`). -/
theorem findVulnerableMatches_spec (ts : List PhylumThreatPackage)
    (inv : List InventoryTriple) :
    findVulnerableMatches ts inv =
      ((ts.product inv).filter (fun p => matchCond p.1 p.2)).map
        (fun p => mkMatch p.1 p.2) := by
  unfold findVulnerableMatches
  simpa using foldl_findVulnerableMatches inv ts []

/-! ### C1: the workspace fetch is not paginated -/

/-- A sample workspace. -/
def wsA : VeracodeWorkspace := ⟨"ws-a", "Workspace A", "2024-01-01", "2024-01-02"⟩

/-- Another sample workspace, living on page 1 of the example source. -/
def wsB : VeracodeWorkspace := ⟨"ws-b", "Workspace B", "2024-02-01", "2024-02-02"⟩

/-- A workspace source reporting `totalPages = 2`: page 0 holds `wsA`,
page 1 holds `wsB`. -/
def exWsSrc : Nat → Except Unit VeracodeWorkspacesResponse := fun i =>
  if i = 0 then .ok ⟨[wsA], some ⟨50, 2, 2, 0⟩⟩
  else .ok ⟨[wsB], some ⟨50, 2, 2, 1⟩⟩

/-- C1 counterexample: against a workspace source reporting `totalPages = 2`,
`fetchAllWorkspaces` does not request pages 0..1 and return both pages'
items concatenated — it requests only page 0 and returns only `[wsA]`. -/
theorem fetchAllWorkspaces_not_paginated_cex :
    fetchAllWorkspaces exWsSrc ≠ (List.range 2, Except.ok ([wsA] ++ [wsB])) ∧
      fetchAllWorkspaces exWsSrc = ([0], Except.ok [wsA]) := by
  constructor
  · decide
  · decide

/-- C1 (amended): the workspace fetch makes exactly one request (page 0) and
returns that single response's workspace list, whatever `totalPages` the
source reports; it is not page-number paginated like the project and library
fetches. -/
theorem fetchAllWorkspaces_single_request
    (src : Nat → Except Unit VeracodeWorkspacesResponse)
    (r : VeracodeWorkspacesResponse) (n : Nat) (m : PageMeta)
    (h0 : src 0 = .ok r) (_hm : r.page = some m) (_hn : m.totalPages = n) :
    fetchAllWorkspaces src = ([0], Except.ok r.workspaces) := by
  simp [fetchAllWorkspaces, h0, Except.map]

/-- Witness for C1's amended theorem at the concrete two-page source. -/
theorem fetchAllWorkspaces_single_request_witness :
    exWsSrc 0 = .ok ⟨[wsA], some ⟨50, 2, 2, 0⟩⟩ ∧
      fetchAllWorkspaces exWsSrc = ([0], Except.ok [wsA]) :=
  ⟨by decide,
    fetchAllWorkspaces_single_request exWsSrc ⟨[wsA], some ⟨50, 2, 2, 0⟩⟩ 2
      ⟨50, 2, 2, 0⟩ (by decide) rfl rfl⟩

/-! ### Behaviour of the shared page-number loop -/

lemma fetchNumberedLoop_stops_after_error {α : Type}
    (src : Nat → Except Unit (NumberedPage α)) :
    ∀ (k p n fuel : Nat) (items : Nat → List α) (meta : Nat → PageMeta)
      (trace : List Nat) (acc : List α),
      p + k < n →
      (∀ i, i < k → src (p + i) = .ok ⟨some (items (p + i)), some (meta (p + i))⟩) →
      (∀ i, i < k → (meta (p + i)).number = p + i ∧ (meta (p + i)).totalPages = n) →
      src (p + k) = .error () →
      p + k ≠ 0 →
      k + 1 ≤ fuel →
      fetchNumberedLoop src fuel p trace acc =
        some (trace ++ List.range' p (k + 1),
          acc ++ (List.range' p k).flatMap (fun i => items i))
  | 0, p, n, fuel, items, meta, trace, acc => by
    intro _hlt _hsrc _hmeta herr hne hfuel
    obtain ⟨f, rfl⟩ : ∃ f, fuel = f + 1 := ⟨fuel - 1, by omega⟩
    have hp : p ≠ 0 := by simpa using hne
    simp only [fetchNumberedLoop]
    rw [show p + 0 = p from rfl] at herr
    rw [herr]
    simp [hp, List.range'_succ]
  | k + 1, p, n, fuel, items, meta, trace, acc => by
    intro hlt hsrc hmeta herr hne hfuel
    obtain ⟨f, rfl⟩ : ∃ f, fuel = f + 1 := ⟨fuel - 1, by omega⟩
    have h0 := hsrc 0 (by omega)
    have hm0 := hmeta 0 (by omega)
    rw [show p + 0 = p from rfl] at h0 hm0
    simp only [fetchNumberedLoop]
    rw [h0]
    simp only [Option.map_some', Option.getD_some, hm0.1, hm0.2]
    have hlt' : p < n - 1 := by omega
    rw [if_pos hlt']
    rw [fetchNumberedLoop_stops_after_error src k (p + 1) n f items meta
      (trace ++ [p]) (acc ++ items p)
      (by omega)
      (fun i hi => by have := hsrc (i + 1) (by omega); rwa [show p + (i + 1) = p + 1 + i by omega] at this)
      (fun i hi => by have := hmeta (i + 1) (by omega); rwa [show p + (i + 1) = p + 1 + i by omega] at this)
      (by rwa [show p + 1 + k = p + (k + 1) by omega])
      (by omega) (by omega)]
    rw [List.range'_succ p (k + 1) 1, List.range'_succ p k 1]
    simp

lemma fetchNumberedLoop_complete {α : Type}
    (src : Nat → Except Unit (NumberedPage α)) :
    ∀ (k p n fuel : Nat) (items : Nat → List α) (meta : Nat → PageMeta)
      (trace : List Nat) (acc : List α),
      p + k = n →
      1 ≤ k →
      (∀ i, i < k → src (p + i) = .ok ⟨some (items (p + i)), some (meta (p + i))⟩) →
      (∀ i, i < k → (meta (p + i)).number = p + i ∧ (meta (p + i)).totalPages = n) →
      k ≤ fuel →
      fetchNumberedLoop src fuel p trace acc =
        some (trace ++ List.range' p k, acc ++ (List.range' p k).flatMap (fun i => items i))
  | 0, p, n, fuel, items, meta, trace, acc => by
    intro _ hk
    omega
  | 1, p, n, fuel, items, meta, trace, acc => by
    intro hn _hk hsrc hmeta hfuel
    obtain ⟨f, rfl⟩ : ∃ f, fuel = f + 1 := ⟨fuel - 1, by omega⟩
    have h0 := hsrc 0 (by omega)
    have hm0 := hmeta 0 (by omega)
    rw [show p + 0 = p from rfl] at h0 hm0
    simp only [fetchNumberedLoop]
    rw [h0]
    simp only [Option.map_some', Option.getD_some, hm0.1, hm0.2]
    rw [if_neg (by omega)]
    simp [List.range'_succ]
  | k + 2, p, n, fuel, items, meta, trace, acc => by
    intro hn _hk hsrc hmeta hfuel
    obtain ⟨f, rfl⟩ : ∃ f, fuel = f + 1 := ⟨fuel - 1, by omega⟩
    have h0 := hsrc 0 (by omega)
    have hm0 := hmeta 0 (by omega)
    rw [show p + 0 = p from rfl] at h0 hm0
    simp only [fetchNumberedLoop]
    rw [h0]
    simp only [Option.map_some', Option.getD_some, hm0.1, hm0.2]
    rw [if_pos (by omega)]
    rw [fetchNumberedLoop_complete src (k + 1) (p + 1) n f items meta
      (trace ++ [p]) (acc ++ items p)
      (by omega) (by omega)
      (fun i hi => by have := hsrc (i + 1) (by omega); rwa [show p + (i + 1) = p + 1 + i by omega] at this)
      (fun i hi => by have := hmeta (i + 1) (by omega); rwa [show p + (i + 1) = p + 1 + i by omega] at this)
      (by omega)]
    rw [List.range'_succ p (k + 1) 1]
    simp

/-- C3: asymmetric failure policy of the project and library fetchers.  If
the fetch of page 0 fails, the fetcher returns an empty item list instead of
propagating the error; if pages `0..k-1` succeed (reporting `totalPages = n`
with `k < n`) and page `k ≥ 1` fails, the fetcher stops after requesting
pages `0..k` and returns exactly the items accumulated from the successful
pages. -/
theorem pagedFetchers_failure_policy
    (srcP : Nat → Except Unit (NumberedPage VeracodeProject))
    (srcL : Nat → Except Unit (NumberedPage VeracodeLibrary))
    (fuel k n : Nat) (itemsP : Nat → List VeracodeProject)
    (itemsL : Nat → List VeracodeLibrary) (metaP metaL : Nat → PageMeta) :
    (srcP 0 = .error () → 1 ≤ fuel →
      fetchProjectsForWorkspace srcP fuel = some ([0], [])) ∧
    (srcL 0 = .error () → 1 ≤ fuel →
      fetchLibrariesForProject srcL fuel = some ([0], [])) ∧
    (1 ≤ k → k < n → k + 1 ≤ fuel →
      (∀ i, i < k → srcP i = .ok ⟨some (itemsP i), some (metaP i)⟩) →
      (∀ i, i < k → (metaP i).number = i ∧ (metaP i).totalPages = n) →
      srcP k = .error () →
      fetchProjectsForWorkspace srcP fuel =
        some (List.range (k + 1), (List.range k).flatMap itemsP)) ∧
    (1 ≤ k → k < n → k + 1 ≤ fuel →
      (∀ i, i < k → srcL i = .ok ⟨some (itemsL i), some (metaL i)⟩) →
      (∀ i, i < k → (metaL i).number = i ∧ (metaL i).totalPages = n) →
      srcL k = .error () →
      fetchLibrariesForProject srcL fuel =
        some (List.range (k + 1), (List.range k).flatMap itemsL)) := by
  refine ⟨?_, ?_, ?_, ?_⟩
  · intro herr hfuel
    obtain ⟨f, rfl⟩ : ∃ f, fuel = f + 1 := ⟨fuel - 1, by omega⟩
    simp [fetchProjectsForWorkspace, fetchNumberedLoop, herr]
  · intro herr hfuel
    obtain ⟨f, rfl⟩ : ∃ f, fuel = f + 1 := ⟨fuel - 1, by omega⟩
    simp [fetchLibrariesForProject, fetchNumberedLoop, herr]
  · intro hk hkn hfuel hsrc hmeta herr
    have := fetchNumberedLoop_stops_after_error srcP k 0 n fuel itemsP metaP [] []
      (by omega) (fun i hi => by simpa using hsrc i hi)
      (fun i hi => by simpa using hmeta i hi) (by simpa using herr)
      (by omega) hfuel
    simpa [fetchProjectsForWorkspace, List.range_eq_range'] using this
  · intro hk hkn hfuel hsrc hmeta herr
    have := fetchNumberedLoop_stops_after_error srcL k 0 n fuel itemsL metaL [] []
      (by omega) (fun i hi => by simpa using hsrc i hi)
      (fun i hi => by simpa using hmeta i hi) (by simpa using herr)
      (by omega) hfuel
    simpa [fetchLibrariesForProject, List.range_eq_range'] using this

/-- A sample project for the concrete page sources. -/
def exProj : VeracodeProject := ⟨"p-1", "Project One", "ws-a", "2024-01-01", "2024-01-02"⟩

/-- A sample library for the concrete page sources. -/
def exLib : VeracodeLibrary := ⟨"lib-1", "left-pad", "1.0.0", "npm", "MIT", []⟩

/-- Project source: page 0 succeeds reporting `totalPages = 3`, every later
page request fails. -/
def exProjSrcFail : Nat → Except Unit (NumberedPage VeracodeProject) := fun i =>
  if i = 0 then .ok ⟨some [exProj], some ⟨100, 3, 3, 0⟩⟩ else .error ()

/-- Library source: page 0 succeeds reporting `totalPages = 3`, every later
page request fails. -/
def exLibSrcFail : Nat → Except Unit (NumberedPage VeracodeLibrary) := fun i =>
  if i = 0 then .ok ⟨some [exLib], some ⟨100, 3, 3, 0⟩⟩ else .error ()

/-- Witness for C3: a failing page 0 yields an empty result, and a failure
on page 1 of 3 yields exactly page 0's items. -/
theorem pagedFetchers_failure_policy_witness :
    fetchProjectsForWorkspace (fun _ => .error ()) 1 = some ([0], []) ∧
    fetchLibrariesForProject (fun _ => .error ()) 1 = some ([0], []) ∧
    fetchProjectsForWorkspace exProjSrcFail 5 = some ([0, 1], [exProj]) ∧
    fetchLibrariesForProject exLibSrcFail 5 = some ([0, 1], [exLib]) := by
  refine ⟨?_, ?_, ?_, ?_⟩
  · exact (pagedFetchers_failure_policy (fun _ => .error ()) (fun _ => .error ())
      1 0 0 (fun _ => []) (fun _ => []) (fun _ => ⟨0, 0, 0, 0⟩) (fun _ => ⟨0, 0, 0, 0⟩)).1
      rfl (by omega)
  · exact (pagedFetchers_failure_policy (fun _ => .error ()) (fun _ => .error ())
      1 0 0 (fun _ => []) (fun _ => []) (fun _ => ⟨0, 0, 0, 0⟩) (fun _ => ⟨0, 0, 0, 0⟩)).2.1
      rfl (by omega)
  · have := (pagedFetchers_failure_policy exProjSrcFail exLibSrcFail 5 1 3
      (fun _ => [exProj]) (fun _ => [exLib])
      (fun _ => ⟨100, 3, 3, 0⟩) (fun _ => ⟨100, 3, 3, 0⟩)).2.2.1
      (by omega) (by omega) (by omega) (by decide) (by decide) (by decide)
    simpa using this
  · have := (pagedFetchers_failure_policy exProjSrcFail exLibSrcFail 5 1 3
      (fun _ => [exProj]) (fun _ => [exLib])
      (fun _ => ⟨100, 3, 3, 0⟩) (fun _ => ⟨100, 3, 3, 0⟩)).2.2.2
      (by omega) (by omega) (by omega) (by decide) (by decide) (by decide)
    simpa using this

/-- C6: page-number completeness.  For a source whose every page `i < n`
succeeds with `number = i` and `totalPages = n` (`n ≥ 1`), the project and
library fetchers request exactly pages `0..n-1` and return the pages' items
concatenated in that order; a source whose page 0 reports no `page` metadata
or `totalPages = 0` causes exactly one request. -/
theorem pagedFetchers_completeness
    (srcP : Nat → Except Unit (NumberedPage VeracodeProject))
    (srcL : Nat → Except Unit (NumberedPage VeracodeLibrary))
    (fuel n : Nat) (itemsP : Nat → List VeracodeProject)
    (itemsL : Nat → List VeracodeLibrary) (metaP metaL : Nat → PageMeta) :
    (1 ≤ n → n ≤ fuel →
      (∀ i, i < n → srcP i = .ok ⟨some (itemsP i), some (metaP i)⟩) →
      (∀ i, i < n → (metaP i).number = i ∧ (metaP i).totalPages = n) →
      fetchProjectsForWorkspace srcP fuel =
        some (List.range n, (List.range n).flatMap itemsP)) ∧
    (1 ≤ n → n ≤ fuel →
      (∀ i, i < n → srcL i = .ok ⟨some (itemsL i), some (metaL i)⟩) →
      (∀ i, i < n → (metaL i).number = i ∧ (metaL i).totalPages = n) →
      fetchLibrariesForProject srcL fuel =
        some (List.range n, (List.range n).flatMap itemsL)) ∧
    (∀ e, 1 ≤ fuel → srcP 0 = .ok ⟨e, none⟩ →
      fetchProjectsForWorkspace srcP fuel = some ([0], e.getD [])) ∧
    (∀ e, 1 ≤ fuel → srcL 0 = .ok ⟨e, none⟩ →
      fetchLibrariesForProject srcL fuel = some ([0], e.getD [])) ∧
    (∀ e m, 1 ≤ fuel → m.totalPages = 0 → srcP 0 = .ok ⟨e, some m⟩ →
      fetchProjectsForWorkspace srcP fuel = some ([0], e.getD [])) ∧
    (∀ e m, 1 ≤ fuel → m.totalPages = 0 → srcL 0 = .ok ⟨e, some m⟩ →
      fetchLibrariesForProject srcL fuel = some ([0], e.getD [])) := by
  refine ⟨?_, ?_, ?_, ?_, ?_, ?_⟩
  · intro hn hfuel hsrc hmeta
    have := fetchNumberedLoop_complete srcP n 0 n fuel itemsP metaP [] []
      (by omega) hn (fun i hi => by simpa using hsrc i hi)
      (fun i hi => by simpa using hmeta i hi) hfuel
    simpa [fetchProjectsForWorkspace, List.range_eq_range'] using this
  · intro hn hfuel hsrc hmeta
    have := fetchNumberedLoop_complete srcL n 0 n fuel itemsL metaL [] []
      (by omega) hn (fun i hi => by simpa using hsrc i hi)
      (fun i hi => by simpa using hmeta i hi) hfuel
    simpa [fetchLibrariesForProject, List.range_eq_range'] using this
  · intro e hfuel h0
    obtain ⟨f, rfl⟩ : ∃ f, fuel = f + 1 := ⟨fuel - 1, by omega⟩
    simp [fetchProjectsForWorkspace, fetchNumberedLoop, h0]
  · intro e hfuel h0
    obtain ⟨f, rfl⟩ : ∃ f, fuel = f + 1 := ⟨fuel - 1, by omega⟩
    simp [fetchLibrariesForProject, fetchNumberedLoop, h0]
  · intro e m hfuel hm h0
    obtain ⟨f, rfl⟩ : ∃ f, fuel = f + 1 := ⟨fuel - 1, by omega⟩
    simp [fetchProjectsForWorkspace, fetchNumberedLoop, h0, hm]
  · intro e m hfuel hm h0
    obtain ⟨f, rfl⟩ : ∃ f, fuel = f + 1 := ⟨fuel - 1, by omega⟩
    simp [fetchLibrariesForProject, fetchNumberedLoop, h0, hm]

/-- Project source with exactly two well-formed pages (`totalPages = 2`). -/
def exProjSrcOk : Nat → Except Unit (NumberedPage VeracodeProject) := fun i =>
  .ok ⟨some [exProj], some ⟨100, 2, 2, i⟩⟩

/-- Library source with exactly two well-formed pages (`totalPages = 2`). -/
def exLibSrcOk : Nat → Except Unit (NumberedPage VeracodeLibrary) := fun i =>
  .ok ⟨some [exLib], some ⟨100, 2, 2, i⟩⟩

/-- Witness for C6: a two-page source yields calls 0 and 1 and both pages'
items in order; a page-metadata-less source yields a single call. -/
theorem pagedFetchers_completeness_witness :
    fetchProjectsForWorkspace exProjSrcOk 2 = some ([0, 1], [exProj, exProj]) ∧
    fetchLibrariesForProject exLibSrcOk 2 = some ([0, 1], [exLib, exLib]) ∧
    fetchProjectsForWorkspace (fun _ => .ok ⟨some [exProj], none⟩) 1 =
      some ([0], [exProj]) ∧
    fetchLibrariesForProject (fun _ => .ok ⟨some [exLib], none⟩) 1 =
      some ([0], [exLib]) := by
  refine ⟨?_, ?_, ?_, ?_⟩
  · have := (pagedFetchers_completeness exProjSrcOk exLibSrcOk 2 2
      (fun _ => [exProj]) (fun _ => [exLib])
      (fun i => ⟨100, 2, 2, i⟩) (fun i => ⟨100, 2, 2, i⟩)).1
      (by omega) (by omega) (by decide) (by decide)
    simpa using this
  · have := (pagedFetchers_completeness exProjSrcOk exLibSrcOk 2 2
      (fun _ => [exProj]) (fun _ => [exLib])
      (fun i => ⟨100, 2, 2, i⟩) (fun i => ⟨100, 2, 2, i⟩)).2.1
      (by omega) (by omega) (by decide) (by decide)
    simpa using this
  · exact (pagedFetchers_completeness (fun _ => .ok ⟨some [exProj], none⟩)
      (fun _ => .ok ⟨some [exLib], none⟩) 1 0 (fun _ => []) (fun _ => [])
      (fun _ => ⟨0, 0, 0, 0⟩) (fun _ => ⟨0, 0, 0, 0⟩)).2.2.1 (some [exProj])
      (by omega) rfl
  · exact (pagedFetchers_completeness (fun _ => .ok ⟨some [exProj], none⟩)
      (fun _ => .ok ⟨some [exLib], none⟩) 1 0 (fun _ => []) (fun _ => [])
      (fun _ => ⟨0, 0, 0, 0⟩) (fun _ => ⟨0, 0, 0, 0⟩)).2.2.2.1 (some [exLib])
      (by omega) rfl

/-! ### Behaviour of the cursor loop -/

lemma range_flatMap_shift (pages : Nat → PhylumThreatFeedResponse) :
    ∀ (m jj : Nat),
      (List.range (m + 1)).flatMap (fun i => (pages (jj + i)).packages) =
        (pages jj).packages ++ (List.range m).flatMap (fun i => (pages (jj + 1 + i)).packages)
  | 0, jj => by simp [List.range_succ]
  | m + 1, jj => by
    have hsh : jj + (m + 1) = jj + 1 + m := by omega
    rw [List.range_succ, List.flatMap_append, range_flatMap_shift pages m jj]
    simp only [List.flatMap_cons, List.flatMap_nil, List.append_nil]
    rw [hsh, List.range_succ, List.flatMap_append]
    simp

lemma fetchThreatLoop_complete (src : JsCursor → Except Unit PhylumThreatFeedResponse) :
    ∀ (k : Nat) (fuel : Nat) (cur : JsCursor) (acc : List PhylumThreatPackage)
      (pages : Nat → PhylumThreatFeedResponse) (j : Nat),
      1 ≤ k → k ≤ fuel →
      src cur = .ok (pages j) →
      (∀ i, i + 1 < k → src (pages (j + i)).cursor = .ok (pages (j + i + 1))) →
      (∀ i, i + 1 < k → (pages (j + i)).cursor.truthy = true) →
      (pages (j + k - 1)).cursor.truthy = false →
      fetchThreatLoop src fuel cur acc =
        some (.ok (acc ++ (List.range k).flatMap (fun i => (pages (j + i)).packages)))
  | 0, fuel, cur, acc, pages, j => by
    intro hk
    omega
  | 1, fuel, cur, acc, pages, j => by
    intro _hk hfuel hcur _hchain _htruthy hlast
    obtain ⟨f, rfl⟩ : ∃ f, fuel = f + 1 := ⟨fuel - 1, by omega⟩
    rw [show j + 1 - 1 = j from rfl] at hlast
    simp only [fetchThreatLoop, hcur]
    rw [if_neg (by simp [hlast])]
    simp [List.range_succ]
  | k + 2, fuel, cur, acc, pages, j => by
    intro _hk hfuel hcur hchain htruthy hlast
    obtain ⟨f, rfl⟩ : ∃ f, fuel = f + 1 := ⟨fuel - 1, by omega⟩
    simp only [fetchThreatLoop, hcur]
    have ht0 : (pages j).cursor.truthy = true := by
      have := htruthy 0 (by omega)
      simpa using this
    rw [if_pos ht0]
    rw [fetchThreatLoop_complete src (k + 1) f (pages j).cursor
      (acc ++ (pages j).packages) pages (j + 1)
      (by omega) (by omega)
      (by have := hchain 0 (by omega); simpa using this)
      (fun i hi => by
        have := hchain (i + 1) (by omega)
        rwa [show j + (i + 1) = j + 1 + i by omega] at this)
      (fun i hi => by
        have := htruthy (i + 1) (by omega)
        rwa [show j + (i + 1) = j + 1 + i by omega] at this)
      (by rwa [show j + 1 + (k + 1) - 1 = j + (k + 2) - 1 by omega])]
    rw [show k + 2 = k + 1 + 1 from rfl, range_flatMap_shift pages (k + 1) j]
    simp [List.append_assoc]

lemma fetchThreatLoop_error (src : JsCursor → Except Unit PhylumThreatFeedResponse) :
    ∀ (k : Nat) (fuel : Nat) (cur : JsCursor) (acc : List PhylumThreatPackage)
      (pages : Nat → PhylumThreatFeedResponse) (j : Nat),
      1 ≤ k → k + 1 ≤ fuel →
      src cur = .ok (pages j) →
      (∀ i, i + 1 < k → src (pages (j + i)).cursor = .ok (pages (j + i + 1))) →
      (∀ i, i < k → (pages (j + i)).cursor.truthy = true) →
      src (pages (j + k - 1)).cursor = .error () →
      fetchThreatLoop src fuel cur acc = some (.error ())
  | 0, fuel, cur, acc, pages, j => by
    intro hk
    omega
  | 1, fuel, cur, acc, pages, j => by
    intro _hk hfuel hcur _hchain htruthy herr
    obtain ⟨f, rfl⟩ : ∃ f, fuel = f + 1 := ⟨fuel - 1, by omega⟩
    simp only [fetchThreatLoop, hcur]
    have ht0 : (pages j).cursor.truthy = true := by
      have := htruthy 0 (by omega)
      simpa using this
    rw [if_pos ht0]
    obtain ⟨g, rfl⟩ : ∃ g, f = g + 1 := ⟨f - 1, by omega⟩
    rw [show j + 1 - 1 = j from rfl] at herr
    simp only [fetchThreatLoop, herr]
  | k + 2, fuel, cur, acc, pages, j => by
    intro _hk hfuel hcur hchain htruthy herr
    obtain ⟨f, rfl⟩ : ∃ f, fuel = f + 1 := ⟨fuel - 1, by omega⟩
    simp only [fetchThreatLoop, hcur]
    have ht0 : (pages j).cursor.truthy = true := by
      have := htruthy 0 (by omega)
      simpa using this
    rw [if_pos ht0]
    exact fetchThreatLoop_error src (k + 1) f (pages j).cursor
      (acc ++ (pages j).packages) pages (j + 1)
      (by omega) (by omega)
      (by have := hchain 0 (by omega); simpa using this)
      (fun i hi => by
        have := hchain (i + 1) (by omega)
        rwa [show j + (i + 1) = j + 1 + i by omega] at this)
      (fun i hi => by
        have := htruthy (i + 1) (by omega)
        rwa [show j + (i + 1) = j + 1 + i by omega] at this)
      (by rwa [show j + 1 + (k + 1) - 1 = j + (k + 2) - 1 by omega])

/-- C4: the threat-feed fetch returns the concatenation of all pages' items
in page order, continuing exactly while the returned cursor is truthy; a
page whose cursor is absent (`undef`), the number `0`, or the empty string
terminates pagination identically (immediately after appending that page's
items). -/
theorem fetchAllThreatPackages_completeness
    (src : JsCursor → Except Unit PhylumThreatFeedResponse)
    (k fuel : Nat) (pages : Nat → PhylumThreatFeedResponse) :
    (1 ≤ k → k ≤ fuel →
      src .undef = .ok (pages 0) →
      (∀ i, i + 1 < k → src (pages i).cursor = .ok (pages (i + 1))) →
      (∀ i, i + 1 < k → (pages i).cursor.truthy = true) →
      (pages (k - 1)).cursor.truthy = false →
      fetchAllThreatPackages src fuel =
        some (.ok ((List.range k).flatMap (fun i => (pages i).packages)))) ∧
    (∀ (cur : JsCursor) (acc : List PhylumThreatPackage)
        (r : PhylumThreatFeedResponse) (f : Nat),
      src cur = .ok r → r.cursor.truthy = false →
      fetchThreatLoop src (f + 1) cur acc = some (.ok (acc ++ r.packages))) ∧
    JsCursor.truthy .undef = false ∧
    JsCursor.truthy (.num 0) = false ∧
    JsCursor.truthy (.str "") = false := by
  refine ⟨?_, ?_, rfl, by decide, by decide⟩
  · intro hk hfuel h0 hchain htruthy hlast
    have := fetchThreatLoop_complete src k fuel .undef [] pages 0
      hk hfuel h0 (fun i hi => by simpa using hchain i hi)
      (fun i hi => by simpa using htruthy i hi) (by simpa using hlast)
    simpa [fetchAllThreatPackages] using this
  · intro cur acc r f hcur hfalsy
    simp only [fetchThreatLoop]
    rw [hcur]
    simp [hfalsy]

/-- A sample threat entry. -/
def pkgA : PhylumThreatPackage :=
  ⟨"2024-01-01", "npm", none, ["typosquat"], "left-pad", "1.0.0"⟩

/-- A second sample threat entry. -/
def pkgB : PhylumThreatPackage :=
  ⟨"2023-06-15", "pypi", none, ["malware"], "requests3", "2.0.0"⟩

/-- A two-page threat feed: page 0 carries `pkgA` and cursor `7`, page 1
carries `pkgB` and cursor `0` (falsy: stop). -/
def exThreatPages : Nat → PhylumThreatFeedResponse := fun i =>
  if i = 0 then ⟨true, false, [pkgA], .num 7⟩ else ⟨false, true, [pkgB], .num 0⟩

/-- The source realizing `exThreatPages`: the initial cursor-less request
returns page 0, cursor `7` returns page 1, anything else fails. -/
def exThreatSrc : JsCursor → Except Unit PhylumThreatFeedResponse := fun c =>
  match c with
  | .undef => .ok (exThreatPages 0)
  | .num 7 => .ok (exThreatPages 1)
  | _ => .error ()

/-- Witness for C4 on the concrete two-page feed: both pages' items are
returned in order, and the `num 0` cursor of page 1 stops pagination. -/
theorem fetchAllThreatPackages_completeness_witness :
    fetchAllThreatPackages exThreatSrc 2 = some (.ok [pkgA, pkgB]) ∧
    fetchThreatLoop exThreatSrc 3 (.num 7) [pkgA] = some (.ok [pkgA, pkgB]) := by
  constructor
  · have := (fetchAllThreatPackages_completeness exThreatSrc 2 2 exThreatPages).1
      (by omega) (by omega) rfl
      (fun i hi => by
        have : i = 0 := by omega
        subst this
        rfl)
      (fun i hi => by
        have : i = 0 := by omega
        subst this
        decide)
      (by decide)
    simpa [exThreatPages] using this
  · have := (fetchAllThreatPackages_completeness exThreatSrc 2 2 exThreatPages).2.1
      (.num 7) [pkgA] (exThreatPages 1) 2 rfl (by decide)
    simpa [exThreatPages] using this

/-- C5: if any single page fetch of the threat feed fails, the fetch
propagates the error and returns no partial list: an immediately failing
first request, or a failure after `k` successfully fetched pages, both end
in `Except.error` — never in an `Except.ok` with the earlier pages'
items. -/
theorem fetchAllThreatPackages_error_propagation
    (src : JsCursor → Except Unit PhylumThreatFeedResponse)
    (k fuel : Nat) (pages : Nat → PhylumThreatFeedResponse) :
    (src .undef = .error () → 1 ≤ fuel →
      fetchAllThreatPackages src fuel = some (.error ())) ∧
    (1 ≤ k → k + 1 ≤ fuel →
      src .undef = .ok (pages 0) →
      (∀ i, i + 1 < k → src (pages i).cursor = .ok (pages (i + 1))) →
      (∀ i, i < k → (pages i).cursor.truthy = true) →
      src (pages (k - 1)).cursor = .error () →
      fetchAllThreatPackages src fuel = some (.error ())) := by
  constructor
  · intro herr hfuel
    obtain ⟨f, rfl⟩ : ∃ f, fuel = f + 1 := ⟨fuel - 1, by omega⟩
    simp [fetchAllThreatPackages, fetchThreatLoop, herr]
  · intro hk hfuel h0 hchain htruthy herr
    have := fetchThreatLoop_error src k fuel .undef [] pages 0
      hk hfuel h0 (fun i hi => by simpa using hchain i hi)
      (fun i hi => by simpa using htruthy i hi) (by simpa using herr)
    simpa [fetchAllThreatPackages] using this

/-- A threat feed whose page 0 succeeds with a truthy cursor and whose page 1
request fails. -/
def exThreatSrcFail : JsCursor → Except Unit PhylumThreatFeedResponse := fun c =>
  match c with
  | .undef => .ok ⟨true, false, [pkgA], .num 7⟩
  | _ => .error ()

/-- Witness for C5: a failing first request propagates the error, and a
failure on page 1 after a successful page 0 also yields the error — not
`pkgA`'s partial page. -/
theorem fetchAllThreatPackages_error_propagation_witness :
    fetchAllThreatPackages (fun _ => .error ()) 1 = some (.error ()) ∧
    fetchAllThreatPackages exThreatSrcFail 3 = some (.error ()) := by
  constructor
  · exact (fetchAllThreatPackages_error_propagation (fun _ => .error ()) 0 1
      (fun _ => ⟨false, false, [], .undef⟩)).1 rfl (by omega)
  · exact (fetchAllThreatPackages_error_propagation exThreatSrcFail 1 3
      (fun _ => ⟨true, false, [pkgA], .num 7⟩)).2 (by omega) (by omega) rfl
      (fun i hi => by omega)
      (fun i hi => by
        have : i = 0 := by omega
        subst this
        decide)
      (by decide)

/-! ### C8: an invalid `created` date makes the table renderer throw -/

/-- A threat entry whose `created` field is not a parsable date. -/
def pkgBad : PhylumThreatPackage := ⟨"not-a-date", "npm", none, [], "evil-pkg", "1.0.0"⟩

/-- C8: on a non-empty threat list containing an entry with an unparsable
`created` date, `generateMaliciousPackagesTable` throws (the date rendering
used for column widths and rows fails) instead of returning a table, while
the sort step itself tolerates the invalid date and still produces the
sorted copy. -/
theorem generateMaliciousPackagesTable_invalid_date_throws :
    generateMaliciousPackagesTable "2025-01-01T00:00:00.000Z" [pkgBad, pkgA] =
      .error () ∧
    sortedPackages [pkgBad, pkgA] = [pkgBad, pkgA] := by
  constructor
  · rfl
  · rfl

/-! ### C9: the zero-match alert summary -/

/-- The characters `new Date().toISOString()` can produce: digits and
`-`, `:`, `.`, `T`, `Z`. -/
def isoTimeChar (c : Char) : Bool :=
  c.isDigit || c == '-' || c == ':' || c == '.' || c == 'T' || c == 'Z'

lemma sub_of_sub_right {α : Type} (s : List α) {l t : List α} (h : l <:+: t) :
    l <:+: s ++ t := by
  obtain ⟨u, v, huv⟩ := h
  exact ⟨s ++ u, v, by simpa [List.append_assoc] using congrArg (s ++ ·) huv⟩

set_option maxRecDepth 8192 in
/-- The empty-match summary, split around the interpolated timestamp. -/
lemma generateSummary_empty_decomp (now : String) :
    (generateSummary now []).toList =
      "THREAT FEED SECURITY ALERT SUMMARY\n=====================================\n\nGenerated: ".toList ++
      (now.toList ++
        "\nTotal vulnerable packages found: 0\n\n✅ No vulnerable packages found in your projects.\nAll packages in your Veracode SCA projects are clean.\n".toList) := by
  have hm1 : "THREAT FEED SECURITY ALERT SUMMARY\n=====================================\n\nGenerated: ".toList =
      "THREAT FEED SECURITY ALERT SUMMARY\n".toList ++
      "=====================================\n\n".toList ++ "Generated: ".toList := by decide
  have hm2 : "\nTotal vulnerable packages found: 0\n\n✅ No vulnerable packages found in your projects.\nAll packages in your Veracode SCA projects are clean.\n".toList =
      "\n".toList ++ "Total vulnerable packages found: ".toList ++ "0".toList ++
      "\n\n".toList ++ "✅ No vulnerable packages found in your projects.\n".toList ++
      "All packages in your Veracode SCA projects are clean.\n".toList := by decide
  have h0 : toString (0 : Nat) = "0" := rfl
  simp [generateSummary, hm1, hm2, h0, String.toList, String.data_append,
    List.append_assoc]

/-- C9: with an empty match list the alert summary contains the fixed clean
message, and — for any timestamp made of `toISOString` characters — contains
no numbered match block (no occurrence of `"Package:"`) and no
action-required footer (no occurrence of `"ACTION REQUIRED"`). -/
theorem generateSummary_empty_clean (now : String)
    (hnow : ∀ c ∈ now.toList, isoTimeChar c = true) :
    ("✅ No vulnerable packages found in your projects.\nAll packages in your Veracode SCA projects are clean.\n".toList
        <:+: (generateSummary now []).toList) ∧
    ¬ ("Package:".toList <:+: (generateSummary now []).toList) ∧
    ¬ ("ACTION REQUIRED".toList <:+: (generateSummary now []).toList) := by
  refine ⟨?_, ?_, ?_⟩
  · rw [generateSummary_empty_decomp now]
    apply sub_of_sub_right
    apply sub_of_sub_right
    decide
  · intro h
    have hp : ('P' : Char) ∈ (generateSummary now []).toList :=
      h.subset (by decide)
    rw [generateSummary_empty_decomp now] at hp
    simp only [List.mem_append] at hp
    rcases hp with hp | hp | hp
    · exact absurd hp (by decide)
    · exact absurd (hnow _ hp) (by decide)
    · exact absurd hp (by decide)
  · intro h
    have hq : ('Q' : Char) ∈ (generateSummary now []).toList :=
      h.subset (by decide)
    rw [generateSummary_empty_decomp now] at hq
    simp only [List.mem_append] at hq
    rcases hq with hq | hq | hq
    · exact absurd hq (by decide)
    · exact absurd (hnow _ hq) (by decide)
    · exact absurd hq (by decide)

/-- Witness for C9 at a concrete `toISOString`-shaped timestamp. -/
theorem generateSummary_empty_clean_witness :
    (∀ c ∈ ("2025-06-01T12:00:00.000Z" : String).toList, isoTimeChar c = true) ∧
    (("✅ No vulnerable packages found in your projects.\nAll packages in your Veracode SCA projects are clean.\n".toList
        <:+: (generateSummary "2025-06-01T12:00:00.000Z" []).toList) ∧
      ¬ ("Package:".toList <:+: (generateSummary "2025-06-01T12:00:00.000Z" []).toList) ∧
      ¬ ("ACTION REQUIRED".toList <:+: (generateSummary "2025-06-01T12:00:00.000Z" []).toList)) :=
  ⟨by decide, generateSummary_empty_clean "2025-06-01T12:00:00.000Z" (by decide)⟩

/-! ### C10: the table renderer sorts a copy, leaving its input unchanged -/

/-- C10: over the explicit array store, `generateMaliciousPackagesTable`
leaves the input array unchanged (the sort acts on the spread-copy only),
and its result is the pure function of the input array's contents. -/
theorem generateMaliciousPackagesTable_input_unchanged (now : String)
    (st : List (List PhylumThreatPackage)) (r : Nat) :
    ((generateMaliciousPackagesTableST now st r).1).getD r [] = st.getD r [] ∧
    (generateMaliciousPackagesTableST now st r).2 =
      generateMaliciousPackagesTable now (st.getD r []) := by
  constructor
  · by_cases hlt : r < st.length
    · simp [generateMaliciousPackagesTableST, List.getD_eq_getElem?_getD,
        List.getElem?_append_left hlt]
    · have hle : st.length ≤ r := by omega
      have hd : st.getD r [] = [] := by
        simp [List.getD_eq_getElem?_getD, List.getElem?_eq_none hle]
      rw [hd]
      simp only [generateMaliciousPackagesTableST, hd]
      by_cases heq : r = st.length
      · subst heq
        simp [List.getD_eq_getElem?_getD, List.getElem?_concat_length, jsSort]
      · have hgt : (st ++ [jsSort threatLe []]).length ≤ r := by
          simp
          omega
        simp [List.getD_eq_getElem?_getD, List.getElem?_eq_none hgt]
  · rfl

/-! ### C7: sort order, column widths and padding of the table -/

lemma jsInsert_perm {α : Type} (le : α → α → Bool) (a : α) :
    ∀ l : List α, List.Perm (jsInsert le a l) (a :: l)
  | [] => by simp [jsInsert]
  | b :: bs => by
    simp only [jsInsert]
    by_cases hab : le a b = true
    · rw [if_pos hab]
    · rw [if_neg hab]
      exact ((jsInsert_perm le a bs).cons b).trans (List.Perm.swap a b bs)

lemma jsSort_perm {α : Type} (le : α → α → Bool) :
    ∀ l : List α, List.Perm (jsSort le l) l
  | [] => by simp [jsSort]
  | a :: l => by
    simp only [jsSort]
    exact (jsInsert_perm le a (jsSort le l)).trans ((jsSort_perm le l).cons a)

lemma jsInsert_pairwise {α : Type} (le : α → α → Bool) (a : α) :
    ∀ l : List α,
      l.Pairwise (fun x y => le x y = true) →
      (∀ b ∈ l, le a b = true ∨ le b a = true) →
      (∀ b ∈ l, ∀ c ∈ l, le a b = true → le b c = true → le a c = true) →
      (jsInsert le a l).Pairwise (fun x y => le x y = true)
  | [] => by
    intro _ _ _
    simp [jsInsert]
  | b :: bs => by
    intro hp htot htrans
    have hpb := List.pairwise_cons.mp hp
    simp only [jsInsert]
    by_cases hab : le a b = true
    · rw [if_pos hab]
      refine List.pairwise_cons.mpr ⟨?_, hp⟩
      intro y hy
      rcases List.mem_cons.mp hy with rfl | hy
      · exact hab
      · exact htrans b (by simp) y (by simp [hy]) hab (hpb.1 y hy)
    · rw [if_neg hab]
      have hba : le b a = true := (htot b (by simp)).resolve_left hab
      refine List.pairwise_cons.mpr ⟨?_, ?_⟩
      · intro y hy
        have hy2 := (jsInsert_perm le a bs).mem_iff.mp hy
        rcases List.mem_cons.mp hy2 with rfl | hy3
        · exact hba
        · exact hpb.1 y hy3
      · exact jsInsert_pairwise le a bs hpb.2
          (fun c hc => htot c (by simp [hc]))
          (fun c hc d hd => htrans c (by simp [hc]) d (by simp [hd]))

lemma jsSort_pairwise {α : Type} (le : α → α → Bool) :
    ∀ l : List α,
      (∀ x ∈ l, ∀ y ∈ l, le x y = true ∨ le y x = true) →
      (∀ x ∈ l, ∀ y ∈ l, ∀ z ∈ l, le x y = true → le y z = true → le x z = true) →
      (jsSort le l).Pairwise (fun x y => le x y = true)
  | [] => by
    intro _ _
    simp [jsSort]
  | a :: l => by
    intro htot htrans
    simp only [jsSort]
    have hmem : ∀ b ∈ jsSort le l, b ∈ l := fun b hb =>
      (jsSort_perm le l).mem_iff.mp hb
    exact jsInsert_pairwise le a (jsSort le l)
      (jsSort_pairwise le l
        (fun x hx y hy => htot x (by simp [hx]) y (by simp [hy]))
        (fun x hx y hy z hz => htrans x (by simp [hx]) y (by simp [hy]) z (by simp [hz])))
      (fun b hb => htot a (by simp) b (by simp [hmem b hb]))
      (fun b hb c hc => htrans a (by simp) b (by simp [hmem b hb]) c (by simp [hmem c hc]))

lemma threatLe_total (x y : PhylumThreatPackage) :
    threatLe x y = true ∨ threatLe y x = true := by
  unfold threatLe
  cases hx : parseDateKey x.created <;> cases hy : parseDateKey y.created <;> simp
  exact Nat.le_total _ _

lemma foldl_max_init : ∀ (l : List Nat) (b : Nat), b ≤ l.foldl max b
  | [], b => le_refl b
  | a :: l, b => le_trans (Nat.le_max_left b a) (foldl_max_init l (max b a))

lemma foldl_max_mem : ∀ (l : List Nat) (b a : Nat), a ∈ l → a ≤ l.foldl max b
  | [], _, _, h => absurd h (List.not_mem_nil _)
  | c :: l, b, a, h => by
    rcases List.mem_cons.mp h with rfl | h'
    · exact le_trans (Nat.le_max_right b a) (foldl_max_init l (max b a))
    · exact foldl_max_mem l (max b c) a h'

lemma foldl_max_cases : ∀ (l : List Nat) (b : Nat), l.foldl max b = b ∨ l.foldl max b ∈ l
  | [], b => Or.inl rfl
  | c :: l, b => by
    rcases foldl_max_cases l (max b c) with h | h
    · rcases max_choice b c with hm | hm
      · exact Or.inl (by rw [List.foldl_cons, h, hm])
      · exact Or.inr (by rw [List.foldl_cons, h, hm]; exact List.mem_cons_self c l)
    · exact Or.inr (by rw [List.foldl_cons]; exact List.mem_cons_of_mem c h)

lemma padEnd_length (s : String) (w : Nat) : (padEnd s w).length = max w s.length := by
  have h : (String.mk (List.replicate (w - s.length) ' ')).length = w - s.length := by
    show (List.replicate (w - s.length) ' ').length = w - s.length
    exact List.length_replicate _ _
  simp only [padEnd, String.length_append, h]
  omega

lemma mapM_dateAdded_ok :
    ∀ l : List PhylumThreatPackage,
      (∀ p ∈ l, (parseDateKey p.created).isSome) →
      l.mapM dateAdded = .ok (l.map PhylumThreatPackage.created)
  | [], _ => rfl
  | p :: l, h => by
    have hp : (parseDateKey p.created).isSome := h p (by simp)
    obtain ⟨k, hk⟩ := Option.isSome_iff_exists.mp hp
    have hd : dateAdded p = .ok p.created := by
      simp [dateAdded, hk]
    rw [List.mapM_cons, hd, mapM_dateAdded_ok l (fun q hq => h q (by simp [hq]))]
    rfl

/-- The date column width computed by the renderer: the maximum of the
header length 10 (`"Date Added"`) and every sorted row's rendered date
length. -/
def dateWidth (ts : List PhylumThreatPackage) : Nat :=
  (((sortedPackages ts).map PhylumThreatPackage.created).map String.length).foldl max 10

/-- The ecosystem column width: maximum of 9 (`"Ecosystem"`) and the row
values. -/
def ecoWidth (ts : List PhylumThreatPackage) : Nat :=
  ((sortedPackages ts).map (fun p => (ecosystemOrUnknown p).length)).foldl max 9

/-- The package-name column width: maximum of 12 (`"Package Name"`) and the
row values. -/
def nameWidth (ts : List PhylumThreatPackage) : Nat :=
  ((sortedPackages ts).map (fun p => (nameOrUnknown p).length)).foldl max 12

/-- The version column width: maximum of 15 (`"Package Version"`) and the
row values. -/
def versionWidth (ts : List PhylumThreatPackage) : Nat :=
  ((sortedPackages ts).map (fun p => (versionOrUnknown p).length)).foldl max 15

lemma zip_map_rows (w1 w2 w3 w4 : Nat) :
    ∀ l : List PhylumThreatPackage,
      ((l.map PhylumThreatPackage.created).zip l).map (fun pr =>
          tableRow w1 w2 w3 w4 pr.1 (ecosystemOrUnknown pr.2) (nameOrUnknown pr.2)
            (versionOrUnknown pr.2)) =
        l.map (fun p => tableRow w1 w2 w3 w4 p.created (ecosystemOrUnknown p)
          (nameOrUnknown p) (versionOrUnknown p))
  | [] => rfl
  | a :: l => by simp [zip_map_rows w1 w2 w3 w4 l]

/-- C7: for a non-empty threat list whose every `created` field parses as a
date, the rendered table sorts the entries descending by created timestamp,
renders exactly one padded row per sorted entry in that order, pads every
data-row cell to exactly its column's width, computes each column width as
the maximum of the header length (10, 9, 12, 15) and every row value's
length, and substitutes `"Unknown"` for empty ecosystem, name or version. -/
theorem generateMaliciousPackagesTable_sort_and_padding
    (now : String) (ts : List PhylumThreatPackage)
    (hne : ts ≠ [])
    (hval : ∀ p ∈ ts, (parseDateKey p.created).isSome) :
    (sortedPackages ts).Pairwise
      (fun a b => (parseDateKey b.created).getD 0 ≤ (parseDateKey a.created).getD 0) ∧
    generateMaliciousPackagesTable now ts = .ok (
      tableHead now ts.length ++
      tableRow (dateWidth ts) (ecoWidth ts) (nameWidth ts) (versionWidth ts)
        "Date Added" "Ecosystem" "Package Name" "Package Version" ++
      ("|" ++ dashes (dateWidth ts + 2) ++ "|" ++ dashes (ecoWidth ts + 2) ++ "|" ++
        dashes (nameWidth ts + 2) ++ "|" ++ dashes (versionWidth ts + 2) ++ "|\n") ++
      String.join ((sortedPackages ts).map (fun p =>
        tableRow (dateWidth ts) (ecoWidth ts) (nameWidth ts) (versionWidth ts)
          p.created (ecosystemOrUnknown p) (nameOrUnknown p) (versionOrUnknown p))) ++
      "\n" ++
      "Note: This table contains all packages from the Phylum threat feed.\n" ++
      "Packages that match your project libraries are highlighted in the summary.txt file.\n") ∧
    (∀ p ∈ sortedPackages ts,
      (padEnd p.created (dateWidth ts)).length = dateWidth ts ∧
      (padEnd (ecosystemOrUnknown p) (ecoWidth ts)).length = ecoWidth ts ∧
      (padEnd (nameOrUnknown p) (nameWidth ts)).length = nameWidth ts ∧
      (padEnd (versionOrUnknown p) (versionWidth ts)).length = versionWidth ts) ∧
    (10 ≤ dateWidth ts ∧ (∀ p ∈ sortedPackages ts, p.created.length ≤ dateWidth ts) ∧
      (dateWidth ts = 10 ∨ ∃ p ∈ sortedPackages ts, p.created.length = dateWidth ts)) ∧
    (9 ≤ ecoWidth ts ∧
      (∀ p ∈ sortedPackages ts, (ecosystemOrUnknown p).length ≤ ecoWidth ts) ∧
      (ecoWidth ts = 9 ∨ ∃ p ∈ sortedPackages ts, (ecosystemOrUnknown p).length = ecoWidth ts)) ∧
    (12 ≤ nameWidth ts ∧
      (∀ p ∈ sortedPackages ts, (nameOrUnknown p).length ≤ nameWidth ts) ∧
      (nameWidth ts = 12 ∨ ∃ p ∈ sortedPackages ts, (nameOrUnknown p).length = nameWidth ts)) ∧
    (15 ≤ versionWidth ts ∧
      (∀ p ∈ sortedPackages ts, (versionOrUnknown p).length ≤ versionWidth ts) ∧
      (versionWidth ts = 15 ∨ ∃ p ∈ sortedPackages ts, (versionOrUnknown p).length = versionWidth ts)) ∧
    (∀ p : PhylumThreatPackage,
      (p.ecosystem = "" → ecosystemOrUnknown p = "Unknown") ∧
      (p.name = "" → nameOrUnknown p = "Unknown") ∧
      (p.version = "" → versionOrUnknown p = "Unknown")) := by
  have hvs : ∀ p ∈ sortedPackages ts, (parseDateKey p.created).isSome := fun p hp =>
    hval p ((jsSort_perm threatLe ts).mem_iff.mp hp)
  have hdlen : ∀ p ∈ sortedPackages ts, p.created.length ≤ dateWidth ts := by
    intro p hp
    exact foldl_max_mem _ 10 _ (by
      simp only [List.map_map, List.mem_map]
      exact ⟨p, hp, rfl⟩)
  have helen : ∀ p ∈ sortedPackages ts, (ecosystemOrUnknown p).length ≤ ecoWidth ts := by
    intro p hp
    exact foldl_max_mem _ 9 _ (by
      simp only [List.mem_map]
      exact ⟨p, hp, rfl⟩)
  have hnlen : ∀ p ∈ sortedPackages ts, (nameOrUnknown p).length ≤ nameWidth ts := by
    intro p hp
    exact foldl_max_mem _ 12 _ (by
      simp only [List.mem_map]
      exact ⟨p, hp, rfl⟩)
  have hwlen : ∀ p ∈ sortedPackages ts, (versionOrUnknown p).length ≤ versionWidth ts := by
    intro p hp
    exact foldl_max_mem _ 15 _ (by
      simp only [List.mem_map]
      exact ⟨p, hp, rfl⟩)
  refine ⟨?_, ?_, ?_, ?_, ?_, ?_, ?_, ?_⟩
  · have hpw := jsSort_pairwise threatLe ts
      (fun x _ y _ => threatLe_total x y)
      (fun x hx y hy z hz hxy hyz => by
        obtain ⟨kx, hkx⟩ := Option.isSome_iff_exists.mp (hval x hx)
        obtain ⟨ky, hky⟩ := Option.isSome_iff_exists.mp (hval y hy)
        obtain ⟨kz, hkz⟩ := Option.isSome_iff_exists.mp (hval z hz)
        unfold threatLe at hxy hyz ⊢
        rw [hkx, hky] at hxy
        rw [hky, hkz] at hyz
        rw [hkx, hkz]
        exact decide_eq_true (le_trans (of_decide_eq_true hyz) (of_decide_eq_true hxy)))
    refine hpw.imp_of_mem ?_
    intro a b ha hb hab
    obtain ⟨ka, hka⟩ := Option.isSome_iff_exists.mp (hvs a ha)
    obtain ⟨kb, hkb⟩ := Option.isSome_iff_exists.mp (hvs b hb)
    unfold threatLe at hab
    rw [hka, hkb] at hab
    rw [hka, hkb]
    simpa using of_decide_eq_true hab
  · have hlen0 : ¬ ts.length = 0 := by
      simpa [List.length_eq_zero] using hne
    have hmapM := mapM_dateAdded_ok (sortedPackages ts) hvs
    simp only [generateMaliciousPackagesTable, tableFromSorted, hmapM]
    rw [if_neg hlen0]
    rw [zip_map_rows]
    simp only [dateWidth, ecoWidth, nameWidth, versionWidth, List.map_map]
  · intro p hp
    refine ⟨?_, ?_, ?_, ?_⟩
    · rw [padEnd_length]
      exact Nat.max_eq_left (hdlen p hp)
    · rw [padEnd_length]
      exact Nat.max_eq_left (helen p hp)
    · rw [padEnd_length]
      exact Nat.max_eq_left (hnlen p hp)
    · rw [padEnd_length]
      exact Nat.max_eq_left (hwlen p hp)
  · refine ⟨foldl_max_init _ 10, hdlen, ?_⟩
    rcases foldl_max_cases (((sortedPackages ts).map PhylumThreatPackage.created).map String.length) 10 with h | h
    · exact Or.inl h
    · right
      obtain ⟨s, hs, hse⟩ := List.mem_map.mp h
      obtain ⟨p, hp, rfl⟩ := List.mem_map.mp hs
      exact ⟨p, hp, hse⟩
  · refine ⟨foldl_max_init _ 9, helen, ?_⟩
    rcases foldl_max_cases ((sortedPackages ts).map (fun p => (ecosystemOrUnknown p).length)) 9 with h | h
    · exact Or.inl h
    · right
      simp only [List.mem_map] at h
      obtain ⟨p, hp, hpe⟩ := h
      exact ⟨p, hp, hpe⟩
  · refine ⟨foldl_max_init _ 12, hnlen, ?_⟩
    rcases foldl_max_cases ((sortedPackages ts).map (fun p => (nameOrUnknown p).length)) 12 with h | h
    · exact Or.inl h
    · right
      simp only [List.mem_map] at h
      obtain ⟨p, hp, hpe⟩ := h
      exact ⟨p, hp, hpe⟩
  · refine ⟨foldl_max_init _ 15, hwlen, ?_⟩
    rcases foldl_max_cases ((sortedPackages ts).map (fun p => (versionOrUnknown p).length)) 15 with h | h
    · exact Or.inl h
    · right
      simp only [List.mem_map] at h
      obtain ⟨p, hp, hpe⟩ := h
      exact ⟨p, hp, hpe⟩
  · intro p
    exact ⟨fun h => by simp [ecosystemOrUnknown, h],
      fun h => by simp [nameOrUnknown, h],
      fun h => by simp [versionOrUnknown, h]⟩

/-- The third sample threat entry of the spec's table test. -/
def pkgC : PhylumThreatPackage :=
  ⟨"2024-06-01", "npm", none, ["protestware"], "colors-mod", "3.0.0"⟩

/-- Witness for C7 at the spec's three-date example (`2024-01-01`,
`2023-06-15`, `2024-06-01`): the hypotheses hold, the sorted copy is
descending, and the renderer yields a table. -/
theorem generateMaliciousPackagesTable_sort_and_padding_witness :
    ([pkgA, pkgB, pkgC] ≠ ([] : List PhylumThreatPackage)) ∧
    (∀ p ∈ [pkgA, pkgB, pkgC], (parseDateKey p.created).isSome) ∧
    (sortedPackages [pkgA, pkgB, pkgC]).Pairwise
      (fun a b => (parseDateKey b.created).getD 0 ≤ (parseDateKey a.created).getD 0) ∧
    (∃ s, generateMaliciousPackagesTable "2025-06-01T12:00:00.000Z" [pkgA, pkgB, pkgC] =
      .ok s) :=
  ⟨by decide, by decide,
    (generateMaliciousPackagesTable_sort_and_padding "2025-06-01T12:00:00.000Z"
      [pkgA, pkgB, pkgC] (by decide) (by decide)).1,
    ⟨_, (generateMaliciousPackagesTable_sort_and_padding "2025-06-01T12:00:00.000Z"
      [pkgA, pkgB, pkgC] (by decide) (by decide)).2.1⟩⟩

end ThreatFeed
